import Mathlib

/-!
Shallow embedding of the chat/community backend (guilds, channels, direct
conversations, invites, role-based permissions) and proofs about the
permission gates, invite redemption, broadcast targeting and the
guild/conversation invariants.

User, guild, channel, message, conversation and invite identifiers
(Mongo ObjectIds in the source) are modelled as `Nat`; route handlers that
look entities up by id and mutate the persistent store become pure
functions from a `Store` to a result together with the next `Store`.
Timestamps are modelled as `Nat` instants.
-/

namespace ChatBackend

/-- Embedded role schema (`roleSchema` in models/Guild.js): name, color,
permission strings, position, and the role's member set (user ids). -/
structure Role where
  name : String
  color : String
  permissions : List String
  position : Nat
  members : List Nat
deriving DecidableEq

/-- Embedded guild schema (models/Guild.js): owner, member list and the
embedded role array. -/
structure Guild where
  id : Nat
  name : String
  icon : Option String
  owner : Nat
  members : List Nat
  roles : List Role
deriving DecidableEq

/-- Embedded channel schema (models/Channel.js). `kind` is the schema's
`type` field (enum text|voice). -/
structure Channel where
  id : Nat
  name : String
  topic : String
  guild : Nat
  category : String
  kind : String
deriving DecidableEq

/-- Embedded message schema (models/Message.js): a message references
either a channel or a conversation. -/
structure Message where
  id : Nat
  content : String
  author : Nat
  channel : Option Nat
  conversationId : Option Nat
deriving DecidableEq

/-- Embedded conversation document (routes/conversations.js creates them
with `participants`, `creator` and a nullable `lastMessage`). -/
structure Conversation where
  id : Nat
  participants : List Nat
  creator : Nat
  lastMessage : Option Nat
deriving DecidableEq

/-- Embedded invite schema (models/Invite.js). `expiresAt` is nullable in
the `isExpired` method, hence an `Option`. -/
structure Invite where
  id : Nat
  code : String
  guild : Nat
  creator : Nat
  uses : Nat
  maxUses : Nat
  expiresAt : Option Nat
deriving DecidableEq

/-- The persistent store: the Mongo collections the handlers read and
mutate. -/
structure Store where
  users : List Nat
  guilds : List Guild
  channels : List Channel
  messages : List Message
  conversations : List Conversation
  invites : List Invite
deriving DecidableEq

/-- `Guild.findById` over the store. -/
def findGuild (st : Store) (gid : Nat) : Option Guild :=
  st.guilds.find? (fun g => g.id == gid)

/-- `Invite.findOne({ code })` over the store. -/
def findInviteByCode (st : Store) (code : String) : Option Invite :=
  st.invites.find? (fun i => i.code == code)

/-- Persisting a mutated guild document (`guild.save()`): the stored
document with the same id is replaced. -/
def replaceGuild (gs : List Guild) (g' : Guild) : List Guild :=
  gs.map (fun g => if g.id == g'.id then g' else g)

/-- Persisting a mutated invite document (`invite.save()`). -/
def replaceInvite (is : List Invite) (i' : Invite) : List Invite :=
  is.map (fun i => if i.id == i'.id then i' else i)

/-- Persisting a mutated conversation document (`conversation.save()`). -/
def replaceConversation (cs : List Conversation) (c' : Conversation) :
    List Conversation :=
  cs.map (fun c => if c.id == c'.id then c' else c)

/-- The `isAdmin` check repeated in the guild/channel/message/invite
handlers: `guild.owner.toString() === userId.toString() ||
guild.roles.some(role => role.permissions.includes('ADMINISTRATOR') &&
role.members.includes(userId))`. -/
def isAdmin (g : Guild) (u : Nat) : Bool :=
  (g.owner == u) ||
    g.roles.any (fun r =>
      r.permissions.contains "ADMINISTRATOR" && r.members.contains u)

/-- The `isAdmin || guild.roles.some(role =>
role.permissions.includes(perm) && role.members.includes(userId))` pattern
every handler except the send-message one instantiates. -/
def guildGate (g : Guild) (u : Nat) (perm : String) : Bool :=
  isAdmin g u ||
    g.roles.any (fun r =>
      r.permissions.contains perm && r.members.contains u)

/-- `canManageChannels` in the channel create/update/delete handlers. -/
def canManageChannels (g : Guild) (u : Nat) : Bool :=
  guildGate g u "MANAGE_CHANNELS"

/-- `canKickMembers` in the member-removal handler. -/
def canKickMembers (g : Guild) (u : Nat) : Bool :=
  guildGate g u "KICK_MEMBERS"

/-- `canManageRoles` in the role-creation handler. -/
def canManageRoles (g : Guild) (u : Nat) : Bool :=
  guildGate g u "MANAGE_ROLES"

/-- `canCreateInvites` in the invite-creation handler. -/
def canCreateInvites (g : Guild) (u : Nat) : Bool :=
  guildGate g u "CREATE_INVITE"

/-- `canManageGuild` in the invite list/delete handlers. -/
def canManageGuild (g : Guild) (u : Nat) : Bool :=
  guildGate g u "MANAGE_GUILD"

/-- `canManageMessages` in the message-deletion handler. -/
def canManageMessages (g : Guild) (u : Nat) : Bool :=
  guildGate g u "MANAGE_MESSAGES"

/-- `canSendMessages` in the POST /channels/:id/messages handler:
`guild.roles.some(role => role.members.includes(userId) &&
role.permissions.includes('SEND_MESSAGES'))`. Unlike the other gates it
consults neither the owner nor ADMINISTRATOR. -/
def canSendMessages (g : Guild) (u : Nat) : Bool :=
  g.roles.any (fun r =>
    r.members.contains u && r.permissions.contains "SEND_MESSAGES")

/-- Modelled from the spec: PermissionResolver's `effectiveCapabilities`
(§4.1) as a membership predicate — the full permission universe for the
guild owner, otherwise the union of the permissions of every role whose
member set contains the user. The source has no single such function;
each handler inlines its own check, so this definition follows the
spec's words for comparison with the inlined gates. -/
def effectiveCapability (g : Guild) (u : Nat) (p : String) : Prop :=
  g.owner = u ∨ ∃ r ∈ g.roles, u ∈ r.members ∧ p ∈ r.permissions

instance (g : Guild) (u : Nat) (p : String) :
    Decidable (effectiveCapability g u p) := by
  unfold effectiveCapability; infer_instance

/-- The `@everyone` role pushed by the `guildSchema.pre('save')` hook for a
new guild: its member set is a copy of the guild's current members. -/
def defaultEveryoneRole (members : List Nat) : Role :=
  { name := "@everyone"
    color := "#99AAB5"
    permissions := ["VIEW_CHANNELS", "SEND_MESSAGES", "READ_MESSAGE_HISTORY"]
    position := 0
    members := members }

/-- The `Admin` role pushed by the `guildSchema.pre('save')` hook for a new
guild: permission ADMINISTRATOR, members = [owner]. -/
def defaultAdminRole (owner : Nat) : Role :=
  { name := "Admin"
    color := "#F04747"
    permissions := ["ADMINISTRATOR"]
    position := 1
    members := [owner] }

/-- The `guildSchema.pre('save')` hook on a new document: appends the
`@everyone` and `Admin` default roles. -/
def guildPreSaveNew (g : Guild) : Guild :=
  { g with
      roles := g.roles ++ [defaultEveryoneRole g.members, defaultAdminRole g.owner] }

/-- The guild document built by POST /guilds (`new Guild({name, owner:
userId, members: [userId], icon})`) as persisted through the pre-save
hook. -/
def createGuild (gid : Nat) (name : String) (userId : Nat)
    (icon : Option String) : Guild :=
  guildPreSaveNew
    { id := gid, name := name, icon := icon, owner := userId
      members := [userId], roles := [] }

/-- POST /guilds: saves the new guild and then the default `general` text
channel (`category: 'Text Channels'`, schema default `type: 'text'`). -/
def createGuildHandler (gid cid : Nat) (name : String) (userId : Nat)
    (icon : Option String) : Guild × Channel :=
  (createGuild gid name userId icon,
   { id := cid, name := "general", topic := "", guild := gid
     category := "Text Channels", kind := "text" })

/-- `invite.isExpired()` (models/Invite.js): false when `expiresAt` is
unset, otherwise `expiresAt < now`. -/
def Invite.isExpired (inv : Invite) (now : Nat) : Bool :=
  match inv.expiresAt with
  | none => false
  | some t => t < now

/-- `invite.isMaxUsesReached()` (models/Invite.js): false when
`maxUses === 0`, otherwise `uses >= maxUses`. -/
def Invite.isMaxUsesReached (inv : Invite) : Bool :=
  if inv.maxUses == 0 then false else inv.maxUses ≤ inv.uses

/-- `guild.roles.find(role => role.name === '@everyone')` followed by
`everyoneRole.members.push(userId)`: the first role named `@everyone`, if
any, gains the user. -/
def pushEveryone (u : Nat) : List Role → List Role
  | [] => []
  | r :: rs =>
      if r.name == "@everyone" then
        { r with members := r.members ++ [u] } :: rs
      else
        r :: pushEveryone u rs

/-- The guild mutation in POST /invites/join: `guild.members.push(userId)`
plus the push onto the first `@everyone` role's member set. -/
def joinGuildMember (g : Guild) (u : Nat) : Guild :=
  { g with members := g.members ++ [u], roles := pushEveryone u g.roles }

/-- Outcomes of POST /invites/join. `notFound` is the 404 for a missing
invite, `guildNotFound` the 404 for a missing guild, `expired`,
`exhausted` and `alreadyMember` the three 400 responses. -/
inductive RedeemResult where
  | ok
  | notFound
  | expired
  | exhausted
  | guildNotFound
  | alreadyMember
deriving DecidableEq

/-- POST /invites/join: look the invite up by code, check expiry, check
max uses, look the guild up, check membership, and only then mutate the
guild (members + `@everyone`) and increment the invite's uses. -/
def redeem (st : Store) (now : Nat) (code : String) (userId : Nat) :
    RedeemResult × Store :=
  match findInviteByCode st code with
  | none => (.notFound, st)
  | some inv =>
      if inv.isExpired now then (.expired, st)
      else if inv.isMaxUsesReached then (.exhausted, st)
      else
        match findGuild st inv.guild with
        | none => (.guildNotFound, st)
        | some g =>
            if g.members.contains userId then (.alreadyMember, st)
            else
              (.ok,
               { st with
                   guilds := replaceGuild st.guilds (joinGuildMember g userId)
                   invites :=
                     replaceInvite st.invites { inv with uses := inv.uses + 1 } })

/-- The member-removal mutation in DELETE /guilds/:id/members/:userId:
`$pull` of the user from `members` and from every role's `members`. -/
def kickMember (g : Guild) (target : Nat) : Guild :=
  { g with
      members := g.members.filter (fun m => m != target)
      roles := g.roles.map (fun r =>
        { r with members := r.members.filter (fun m => m != target) }) }

/-- Outcomes of DELETE /guilds/:id/members/:userId. -/
inductive KickResult where
  | ok
  | notFound
  | forbidden
  | cannotKickOwner
deriving DecidableEq

/-- DELETE /guilds/:id/members/:userId: capability check, owner guard,
then the `$pull` mutations. -/
def kickMemberHandler (st : Store) (gid target u : Nat) : KickResult × Store :=
  match findGuild st gid with
  | none => (.notFound, st)
  | some g =>
      if !(canKickMembers g u) then (.forbidden, st)
      else if g.owner == target then (.cannotKickOwner, st)
      else (.ok, { st with guilds := replaceGuild st.guilds (kickMember g target) })

/-- The role pushed by POST /guilds/:id/roles: requested name, color
defaulting to `#99AAB5`, requested permissions, `position:
guild.roles.length`, `members: []`. -/
def createRole (g : Guild) (name : String) (color : Option String)
    (perms : List String) : Guild :=
  { g with
      roles := g.roles ++
        [{ name := name, color := color.getD "#99AAB5", permissions := perms
           position := g.roles.length, members := [] }] }

/-- `Channel.countDocuments({ guild })` over the store. -/
def countGuildChannels (st : Store) (gid : Nat) : Nat :=
  (st.channels.filter (fun c => c.guild == gid)).length

/-- Outcomes of DELETE /channels/:id. `lastChannel` is the 400 response
`Cannot delete the last channel in a guild` (the Conflict of the error
taxonomy); `serverError` is the 500 reached when the channel's guild
document is missing. -/
inductive DeleteChannelResult where
  | deleted
  | notFound
  | forbidden
  | lastChannel
  | serverError
deriving DecidableEq

/-- DELETE /channels/:id: find the channel, find its guild, check
`canManageChannels`, refuse when the guild has at most one channel,
otherwise delete the channel's messages and the channel. -/
def deleteChannelHandler (st : Store) (channelId u : Nat) :
    DeleteChannelResult × Store :=
  match st.channels.find? (fun c => c.id == channelId) with
  | none => (.notFound, st)
  | some ch =>
      match findGuild st ch.guild with
      | none => (.serverError, st)
      | some g =>
          if !(canManageChannels g u) then (.forbidden, st)
          else if countGuildChannels st ch.guild ≤ 1 then (.lastChannel, st)
          else
            (.deleted,
             { st with
                 messages := st.messages.filter (fun m => m.channel != some channelId)
                 channels := st.channels.filter (fun c => c.id != channelId) })

/-- Outcomes of DELETE /messages/:id. `serverError` is the 500 reached
when a moderation lookup dereferences a missing channel or guild. -/
inductive DeleteMessageResult where
  | deleted
  | notFound
  | forbidden
  | serverError
deriving DecidableEq

/-- DELETE /messages/:id: the author may always delete; a non-author is
routed through the guild moderation path only when the message has a
channel (`!isAuthor && message.channel`), where `canManageMessages`
(which includes the `isAdmin` bypass) decides; otherwise 403. -/
def deleteMessageHandler (st : Store) (messageId u : Nat) :
    DeleteMessageResult × Store :=
  match st.messages.find? (fun m => m.id == messageId) with
  | none => (.notFound, st)
  | some msg =>
      let afterDelete :=
        { st with messages := st.messages.filter (fun m => m.id != messageId) }
      if msg.author == u then (.deleted, afterDelete)
      else
        match msg.channel with
        | none => (.forbidden, st)
        | some chId =>
            match st.channels.find? (fun c => c.id == chId) with
            | none => (.serverError, st)
            | some ch =>
                match findGuild st ch.guild with
                | none => (.serverError, st)
                | some g =>
                    if canManageMessages g u then (.deleted, afterDelete)
                    else (.forbidden, st)

/-- Outcomes of POST /channels/:id/messages. The two 403 responses are
kept apart: `forbiddenNotMember` (`You are not a member of this guild`)
and `forbiddenNoPermission` (`You do not have permission to send messages
in this channel`). -/
inductive PostMessageResult where
  | created (messageId : Nat)
  | notFound
  | forbiddenNotMember
  | forbiddenNoPermission
  | serverError
deriving DecidableEq

/-- POST /channels/:id/messages: find the channel and its guild, check
guild membership, check `canSendMessages`, then save the message and
emit `newMessage` to the single room `channel:<id>`. The third component
is the list of rooms the event is emitted to. -/
def postChannelMessage (st : Store) (nextMsgId channelId u : Nat)
    (content : String) : PostMessageResult × Store × List String :=
  match st.channels.find? (fun c => c.id == channelId) with
  | none => (.notFound, st, [])
  | some ch =>
      match findGuild st ch.guild with
      | none => (.serverError, st, [])
      | some g =>
          if !(g.members.contains u) then (.forbiddenNotMember, st, [])
          else if !(canSendMessages g u) then (.forbiddenNoPermission, st, [])
          else
            (.created nextMsgId,
             { st with
                 messages := st.messages ++
                   [{ id := nextMsgId, content := content, author := u
                      channel := some channelId, conversationId := none }] },
             ["channel:" ++ toString channelId])

/-- Outcomes of POST /conversations. -/
inductive CreateConversationResult where
  | existing (convId : Nat)
  | created (convId : Nat)
  | recipientNotFound
deriving DecidableEq

/-- POST /conversations: recipient must exist; an existing conversation is
looked up with `participants: { $all: [userId, recipient] }` (the
participant array contains both ids) and returned as-is; otherwise a new
conversation `participants: [userId, recipient], creator: userId` is
saved. -/
def createConversation (st : Store) (nextId userId recipient : Nat) :
    CreateConversationResult × Store :=
  if !(st.users.contains recipient) then (.recipientNotFound, st)
  else
    match st.conversations.find? (fun c =>
        c.participants.contains userId && c.participants.contains recipient) with
    | some c => (.existing c.id, st)
    | none =>
        (.created nextId,
         { st with
             conversations := st.conversations ++
               [{ id := nextId, participants := [userId, recipient]
                  creator := userId, lastMessage := none }] })

/-- Outcomes of POST /conversations/:id/messages. -/
inductive PostDMResult where
  | created (messageId : Nat)
  | notFound
  | forbidden
deriving DecidableEq

/-- POST /conversations/:id/messages: participant check, save the message,
update `lastMessage`, then emit `newMessage` to `user:<p>` for every
participant and to `conversation:<id>`. The third component is the list
of rooms the event is emitted to, in emission order. -/
def postConversationMessage (st : Store) (nextMsgId convId u : Nat)
    (content : String) : PostDMResult × Store × List String :=
  match st.conversations.find? (fun c => c.id == convId) with
  | none => (.notFound, st, [])
  | some conv =>
      if !(conv.participants.contains u) then (.forbidden, st, [])
      else
        (.created nextMsgId,
         { st with
             messages := st.messages ++
               [{ id := nextMsgId, content := content, author := u
                  channel := none, conversationId := some convId }]
             conversations :=
               replaceConversation st.conversations
                 { conv with lastMessage := some nextMsgId } },
         conv.participants.map (fun p => "user:" ++ toString p) ++
           ["conversation:" ++ toString convId])

/-- The subset invariant of the data model: every role's member set is a
subset of the guild's member set. -/
def rolesWithinMembers (g : Guild) : Prop :=
  ∀ r ∈ g.roles, ∀ u ∈ r.members, u ∈ g.members

/-- Guild states reachable from guild creation through the mutating guild
operations the routes expose: invite redemption adding a member
(POST /invites/join, guarded by the not-already-a-member check), member
kick (DELETE /guilds/:id/members/:userId, guarded by the owner check) and
role creation (POST /guilds/:id/roles). -/
inductive ReachableGuild : Guild → Prop where
  | created (gid : Nat) (name : String) (userId : Nat) (icon : Option String) :
      ReachableGuild (createGuild gid name userId icon)
  | joined (g : Guild) (u : Nat) :
      ReachableGuild g → u ∉ g.members → ReachableGuild (joinGuildMember g u)
  | kicked (g : Guild) (target : Nat) :
      ReachableGuild g → g.owner ≠ target → ReachableGuild (kickMember g target)
  | roleCreated (g : Guild) (name : String) (color : Option String)
      (perms : List String) :
      ReachableGuild g → ReachableGuild (createRole g name color perms)

/-- Two conversations over the same unordered participant pair (equal
participant sets). -/
def sameParticipants (c₁ c₂ : Conversation) : Prop :=
  ∀ x, x ∈ c₁.participants ↔ x ∈ c₂.participants

/-- Conversation lists reachable from the empty collection through any
sequence of POST /conversations calls (arbitrary caller, recipient and
fresh id; the rest of the store is arbitrary at each step). -/
inductive ReachableConversations : List Conversation → Prop where
  | nil : ReachableConversations []
  | step (st : Store) (n u v : Nat) :
      ReachableConversations st.conversations →
      ReachableConversations ((createConversation st n u v).2.conversations)

/-- A guild whose owner (user 7) belongs only to the administrative role,
i.e. to no role granting SEND_MESSAGES. -/
def gOwnerAdminOnly : Guild :=
  { id := 1, name := "g", icon := none, owner := 7, members := [7]
    roles := [{ name := "Admin", color := "#F04747"
                permissions := ["ADMINISTRATOR"], position := 1, members := [7] }] }

/-- Store holding `gOwnerAdminOnly` and one of its channels. -/
def stOwnerAdminOnly : Store :=
  { users := [7], guilds := [gOwnerAdminOnly]
    channels := [{ id := 10, name := "general", topic := "", guild := 1
                   category := "Text Channels", kind := "text" }]
    messages := [], conversations := [], invites := [] }

/-- A guild in which user 2 is a member whose only role grants exactly
ADMINISTRATOR. -/
def gAdminOnlyMember : Guild :=
  { id := 2, name := "h", icon := none, owner := 1, members := [1, 2]
    roles := [{ name := "Admin", color := "#F04747"
                permissions := ["ADMINISTRATOR"], position := 0, members := [2] }] }

/-- Store holding `gAdminOnlyMember` and one of its channels. -/
def stAdminOnlyMember : Store :=
  { users := [1, 2], guilds := [gAdminOnlyMember]
    channels := [{ id := 20, name := "general", topic := "", guild := 2
                   category := "Text Channels", kind := "text" }]
    messages := [], conversations := [], invites := [] }

/-- Store with a live invite whose guild document no longer exists (the
guild-deletion route removes the guild and its channels but not its
invites, so this state is reachable). -/
def stDanglingInvite : Store :=
  { users := [], guilds := [], channels := [], messages := []
    conversations := []
    invites := [{ id := 1, code := "abc", guild := 99, creator := 1
                  uses := 0, maxUses := 0, expiresAt := some 1000 }] }

/-- Store with a single registered user and no conversations. -/
def stSelfDM : Store :=
  { users := [7], guilds := [], channels := [], messages := []
    conversations := [], invites := [] }

/-- A freshly created demo guild owned by user 7. -/
def demoGuild : Guild := createGuild 1 "lean-devs" 7 none

/-- The demo guild's only channel. -/
def demoChannel : Channel :=
  { id := 10, name := "general", topic := "", guild := 1
    category := "Text Channels", kind := "text" }

/-- Store in which `demoChannel` is the last channel of `demoGuild`. -/
def stLastChannel : Store :=
  { users := [7], guilds := [demoGuild], channels := [demoChannel]
    messages := [], conversations := [], invites := [] }

/-- An unlimited, unexpired invite to `demoGuild`. -/
def invW : Invite :=
  { id := 1, code := "w", guild := 1, creator := 7, uses := 0, maxUses := 0
    expiresAt := some 100 }

/-- Store holding `demoGuild` and the invite `invW`. -/
def stInvite : Store :=
  { users := [7, 8], guilds := [demoGuild], channels := [demoChannel]
    messages := [], conversations := [], invites := [invW] }

/-- A direct conversation between users 7 and 8. -/
def demoConversation : Conversation :=
  { id := 5, participants := [7, 8], creator := 7, lastMessage := none }

/-- Store holding `demoConversation`. -/
def stConversation : Store :=
  { users := [7, 8], guilds := [], channels := [], messages := []
    conversations := [demoConversation], invites := [] }

/-- Store with a conversation message authored by user 8, alongside a
guild in which user 7 holds ADMINISTRATOR (as owner). -/
def stDMMessage : Store :=
  { users := [7, 8], guilds := [demoGuild], channels := []
    messages := [{ id := 3, content := "hi", author := 8, channel := none
                   conversationId := some 5 }]
    conversations := [demoConversation], invites := [] }

/-- Looking an element up by key after a keyed in-place replacement
(`findByIdAndUpdate` / `save` semantics over a collection) yields the
replacement whenever some element with that key was present. -/
theorem find?_replace_eq {α : Type} (key : α → Nat) (l : List α) (a' : α) (k : Nat)
    (hk : key a' = k) (hex : ∃ x ∈ l, key x = k) :
    (l.map (fun x => if key x == k then a' else x)).find? (fun x => key x == k) =
      some a' := by
  induction l with
  | nil => simp at hex
  | cons y ys ih =>
      rcases hex with ⟨x, hx, hxk⟩
      by_cases h : key y = k
      · simp [List.find?, h, hk]
      · have hb : (key y == k) = false := by simpa using h
        rcases List.mem_cons.mp hx with hx' | hx'
        · exact absurd (hx' ▸ hxk) h
        · simpa [List.find?, hb] using ih ⟨x, hx', hxk⟩

/-- If some role is named `@everyone`, then after `pushEveryone` some role
is named `@everyone` and contains the pushed user. -/
theorem pushEveryone_mem (u : Nat) (roles : List Role)
    (h : ∃ r ∈ roles, r.name = "@everyone") :
    ∃ r ∈ pushEveryone u roles, r.name = "@everyone" ∧ u ∈ r.members := by
  induction roles with
  | nil => simp at h
  | cons r rs ih =>
      by_cases hr : r.name = "@everyone"
      · refine ⟨{ r with members := r.members ++ [u] }, ?_, hr, ?_⟩
        · simp [pushEveryone, hr]
        · simp
      · have hb : (r.name == "@everyone") = false := by simpa using hr
        rcases h with ⟨r', hr', hname⟩
        rcases List.mem_cons.mp hr' with h' | h'
        · exact absurd (h' ▸ hname) hr
        · rcases ih ⟨r', h', hname⟩ with ⟨r'', hmem, hn, hu⟩
          exact ⟨r'', by simp [pushEveryone, hb, hmem], hn, hu⟩

/-- Every role produced by `pushEveryone` has the member set of one of the
input roles, possibly extended by the pushed user. -/
theorem mem_pushEveryone (u : Nat) (roles : List Role) (r' : Role)
    (h : r' ∈ pushEveryone u roles) :
    ∃ r ∈ roles, r'.members = r.members ∨ r'.members = r.members ++ [u] := by
  induction roles with
  | nil => simp [pushEveryone] at h
  | cons r rs ih =>
      by_cases hr : (r.name == "@everyone") = true
      · simp only [pushEveryone, hr, if_true, List.mem_cons] at h
        rcases h with rfl | h
        · exact ⟨r, List.mem_cons_self r rs, Or.inr rfl⟩
        · exact ⟨r', List.mem_cons_of_mem r h, Or.inl rfl⟩
      · simp only [pushEveryone, Bool.not_eq_true] at hr
        simp only [pushEveryone, hr, if_false, List.mem_cons, Bool.false_eq_true] at h
        rcases h with rfl | h
        · exact ⟨r', List.mem_cons_self r' rs, Or.inl rfl⟩
        · rcases ih h with ⟨r₀, h₀, hcase⟩
          exact ⟨r₀, List.mem_cons_of_mem r h₀, hcase⟩

/-- C1 (counterexample): a guild owner who belongs to no role granting
SEND_MESSAGES fails the permission check for posting a message in a
channel of their own guild — the owner bypass does not extend to the
send-message gate, refuting the claim as stated. -/
theorem owner_send_gate_cex :
    gOwnerAdminOnly.owner = 7 ∧
    (∀ r ∈ gOwnerAdminOnly.roles, 7 ∈ r.members →
      "SEND_MESSAGES" ∉ r.permissions) ∧
    canSendMessages gOwnerAdminOnly 7 = false ∧
    (postChannelMessage stOwnerAdminOnly 100 10 7 "hi").1 =
      PostMessageResult.forbiddenNoPermission ∧
    (postChannelMessage stOwnerAdminOnly 100 10 7 "hi").2.1 = stOwnerAdminOnly := by
  decide

/-- C1 (amended): the guild owner passes every permission gate built on the
`isAdmin` pattern (channel management, kicking, role management, invite
management, message moderation) for every permission; the send-message
gate alone has no owner bypass — it succeeds exactly when the user is in
some role granting SEND_MESSAGES. -/
theorem owner_bypass_except_send (g : Guild) (u : Nat) :
    (g.owner = u → ∀ perm, guildGate g u perm = true) ∧
    (canSendMessages g u = true ↔
      ∃ r ∈ g.roles, u ∈ r.members ∧ "SEND_MESSAGES" ∈ r.permissions) := by
  constructor
  · intro h perm
    simp [guildGate, isAdmin, h]
  · simp [canSendMessages, List.any_eq_true]

/-- C1 (witness): the owner of `gOwnerAdminOnly` passes the
MANAGE_CHANNELS gate. -/
theorem owner_bypass_except_send_witness :
    guildGate gOwnerAdminOnly 7 "MANAGE_CHANNELS" = true :=
  (owner_bypass_except_send gOwnerAdminOnly 7).1 rfl "MANAGE_CHANNELS"

/-- C2 (counterexample): a member whose only permission (via a role) is
ADMINISTRATOR fails the send-message gate, refuting the claim's
"in particular" instance; the administrative bypass is absent from
`canSendMessages`. -/
theorem admin_send_gate_cex :
    effectiveCapability gAdminOnlyMember 2 "ADMINISTRATOR" ∧
    (2 : Nat) ∈ gAdminOnlyMember.members ∧
    canSendMessages gAdminOnlyMember 2 = false ∧
    (postChannelMessage stAdminOnlyMember 100 20 2 "hi").1 =
      PostMessageResult.forbiddenNoPermission := by
  decide

/-- C2 (amended): for every gate built on the `isAdmin` pattern (all gated
guild actions except posting a message), the check succeeds whenever the
permission is in the user's effective set or the administrative
permission is in the user's effective set. -/
theorem hasCapability_admin_gates (g : Guild) (u : Nat) (p : String)
    (h : effectiveCapability g u p ∨ effectiveCapability g u "ADMINISTRATOR") :
    guildGate g u p = true := by
  simp only [guildGate, isAdmin, Bool.or_eq_true, List.any_eq_true]
  rcases h with h | h <;> rcases h with h | ⟨r, hr, hu, hp⟩
  · exact Or.inl (Or.inl (by simpa using h))
  · exact Or.inr ⟨r, hr, by simpa using And.intro hp hu⟩
  · exact Or.inl (Or.inl (by simpa using h))
  · exact Or.inl (Or.inr ⟨r, hr, by simpa using And.intro hp hu⟩)

/-- C2 (witness): user 2, whose only permission is ADMINISTRATOR, passes
the KICK_MEMBERS gate. -/
theorem hasCapability_admin_gates_witness :
    guildGate gAdminOnlyMember 2 "KICK_MEMBERS" = true :=
  hasCapability_admin_gates gAdminOnlyMember 2 "KICK_MEMBERS" (Or.inr (by decide))

/-- C3: invite redemption is atomic. On any failure the store is returned
unchanged; on success the redeemed invite's use counter is incremented by
exactly one (all other invite fields unchanged), the user is a member of
the stored guild, the user is in the member set of a role named
`@everyone` whenever the guild has one, and every other collection of the
store is untouched. -/
theorem redeem_atomic (st : Store) (now : Nat) (code : String) (u : Nat) :
    ((redeem st now code u).1 ≠ RedeemResult.ok → (redeem st now code u).2 = st) ∧
    (∀ inv g, findInviteByCode st code = some inv →
      findGuild st inv.guild = some g →
      (redeem st now code u).1 = RedeemResult.ok →
      (((redeem st now code u).2.invites.find? (fun i => i.id == inv.id)) =
        some { inv with uses := inv.uses + 1 } ∧
       (∃ g', findGuild (redeem st now code u).2 g.id = some g' ∧
          u ∈ g'.members ∧
          ((∃ r ∈ g.roles, r.name = "@everyone") →
            ∃ r ∈ g'.roles, r.name = "@everyone" ∧ u ∈ r.members)) ∧
       (redeem st now code u).2.users = st.users ∧
       (redeem st now code u).2.channels = st.channels ∧
       (redeem st now code u).2.messages = st.messages ∧
       (redeem st now code u).2.conversations = st.conversations)) := by
  constructor
  · intro hne
    cases hfind : findInviteByCode st code with
    | none => simp [redeem, hfind]
    | some inv =>
        cases hexp : inv.isExpired now with
        | true => simp [redeem, hfind, hexp]
        | false =>
            cases hmax : inv.isMaxUsesReached with
            | true => simp [redeem, hfind, hexp, hmax]
            | false =>
                cases hg : findGuild st inv.guild with
                | none => simp [redeem, hfind, hexp, hmax, hg]
                | some g =>
                    by_cases hc : u ∈ g.members
                    · simp [redeem, hfind, hexp, hmax, hg, hc]
                    · exact absurd (by simp [redeem, hfind, hexp, hmax, hg, hc]) hne
  · intro inv g hfind hg hok
    cases hexp : inv.isExpired now with
    | true => simp [redeem, hfind, hexp] at hok
    | false =>
    cases hmax : inv.isMaxUsesReached with
    | true => simp [redeem, hfind, hexp, hmax] at hok
    | false =>
    by_cases hc : u ∈ g.members
    · simp [redeem, hfind, hexp, hmax, hg, hc] at hok
    · have hfind' : st.invites.find? (fun i => i.code == code) = some inv := hfind
      have hg' : st.guilds.find? (fun x => x.id == inv.guild) = some g := hg
      have hinvmem : inv ∈ st.invites := List.mem_of_find?_eq_some hfind'
      have hgmem : g ∈ st.guilds := List.mem_of_find?_eq_some hg'
      simp [redeem, hfind, hexp, hmax, hg, hc]
      refine ⟨?_, ⟨joinGuildMember g u, ?_, ?_, ?_⟩⟩
      · simpa [replaceInvite] using
          find?_replace_eq (fun i => i.id) st.invites
            { inv with uses := inv.uses + 1 } inv.id rfl ⟨inv, hinvmem, rfl⟩
      · simpa [findGuild, replaceGuild] using
          find?_replace_eq (fun x => x.id) st.guilds
            (joinGuildMember g u) g.id rfl ⟨g, hgmem, rfl⟩
      · simp [joinGuildMember]
      · intro r hr hname
        simpa [joinGuildMember] using pushEveryone_mem u g.roles ⟨r, hr, hname⟩

/-- C3 (witness): redeeming invite `invW` with a fresh user increments its
use counter from 0 to 1 in the stored collection. -/
theorem redeem_atomic_witness :
    ((redeem stInvite 0 "w" 8).2.invites.find? (fun i => i.id == invW.id)) =
      some { invW with uses := invW.uses + 1 } :=
  ((redeem_atomic stInvite 0 "w" 8).2 invW demoGuild rfl rfl rfl).1

/-- C4 (counterexample): a redeem call can fail with the 404
`Guild not found` although an invite with the requested code exists, is
not expired, is not exhausted, and the user is a member of no guild — the
claim's enumeration of failure outcomes (NotFound iff no invite with the
code; otherwise only Expired/Exhausted/AlreadyMember) misses this
outcome, so the stated iff is false on this input. -/
theorem redeem_guild_missing_cex :
    (∃ i ∈ stDanglingInvite.invites, i.code = "abc" ∧
      i.isExpired 0 = false ∧ i.isMaxUsesReached = false) ∧
    stDanglingInvite.guilds = [] ∧
    (redeem stDanglingInvite 0 "abc" 7).1 = RedeemResult.guildNotFound ∧
    (redeem stDanglingInvite 0 "abc" 7).1 ≠ RedeemResult.notFound ∧
    (redeem stDanglingInvite 0 "abc" 7).1 ≠ RedeemResult.ok := by
  decide

/-- C4 (amended): the redeem failure conditions in check order —
`notFound` iff no invite has the code; then `expired` iff
`expiresAt < now`; then `exhausted` iff `maxUses != 0 && uses >= maxUses`;
then `guildNotFound` iff the invite's guild document is absent; then
`alreadyMember` iff the user is already in the guild's member set;
success otherwise. -/
theorem redeem_outcome_conditions (st : Store) (now : Nat) (code : String) (u : Nat) :
    ((redeem st now code u).1 = RedeemResult.notFound ↔
      findInviteByCode st code = none) ∧
    (∀ inv, findInviteByCode st code = some inv →
      (((redeem st now code u).1 = RedeemResult.expired) ↔ inv.isExpired now = true) ∧
      (((redeem st now code u).1 = RedeemResult.exhausted) ↔
        (inv.isExpired now = false ∧ inv.isMaxUsesReached = true)) ∧
      (((redeem st now code u).1 = RedeemResult.guildNotFound) ↔
        (inv.isExpired now = false ∧ inv.isMaxUsesReached = false ∧
          findGuild st inv.guild = none)) ∧
      (∀ g, findGuild st inv.guild = some g →
        ((((redeem st now code u).1 = RedeemResult.alreadyMember) ↔
           (inv.isExpired now = false ∧ inv.isMaxUsesReached = false ∧
             u ∈ g.members)) ∧
         (((redeem st now code u).1 = RedeemResult.ok) ↔
           (inv.isExpired now = false ∧ inv.isMaxUsesReached = false ∧
             u ∉ g.members))))) := by
  constructor
  · cases hfind : findInviteByCode st code with
    | none => simp [redeem, hfind]
    | some inv =>
        cases hexp : inv.isExpired now <;>
          cases hmax : inv.isMaxUsesReached <;>
            simp [redeem, hfind, hexp, hmax]
        cases hg : findGuild st inv.guild with
        | none => simp [hg]
        | some g => by_cases hc : u ∈ g.members <;> simp [hg, hc]
  · intro inv hfind
    refine ⟨?_, ?_, ?_, ?_⟩
    · cases hexp : inv.isExpired now <;>
        cases hmax : inv.isMaxUsesReached <;>
          simp [redeem, hfind, hexp, hmax]
      cases hg : findGuild st inv.guild with
      | none => simp [hg]
      | some g => by_cases hc : u ∈ g.members <;> simp [hg, hc]
    · cases hexp : inv.isExpired now <;>
        cases hmax : inv.isMaxUsesReached <;>
          simp [redeem, hfind, hexp, hmax]
      cases hg : findGuild st inv.guild with
      | none => simp [hg]
      | some g => by_cases hc : u ∈ g.members <;> simp [hg, hc]
    · cases hexp : inv.isExpired now <;>
        cases hmax : inv.isMaxUsesReached <;>
          simp [redeem, hfind, hexp, hmax]
      cases hg : findGuild st inv.guild with
      | none => simp [hg]
      | some g => by_cases hc : u ∈ g.members <;> simp [hg, hc]
    · intro g hg
      cases hexp : inv.isExpired now <;>
        cases hmax : inv.isMaxUsesReached <;>
          simp [redeem, hfind, hexp, hmax, hg]
      by_cases hc : u ∈ g.members <;> simp [hc]

/-- C4 (witness): with `demoGuild`'s owner redeeming invite `invW`, the
outcome is `alreadyMember` exactly under the characterized conditions. -/
theorem redeem_outcome_conditions_witness :
    ((redeem stInvite 0 "w" 7).1 = RedeemResult.alreadyMember ↔
      (invW.isExpired 0 = false ∧ invW.isMaxUsesReached = false ∧
        7 ∈ demoGuild.members)) :=
  (((redeem_outcome_conditions stInvite 0 "w" 7).2 invW rfl).2.2.2 demoGuild rfl).1

/-- C5: deleting the only remaining channel of its guild fails for every
user — the store is unchanged, the result is never `deleted`, and for a
user holding the manage-channels capability the result is precisely the
last-channel Conflict response. -/
theorem last_channel_delete_blocked (st : Store) (ch : Channel) (g : Guild) (u : Nat)
    (hch : st.channels.find? (fun c => c.id == ch.id) = some ch)
    (hg : findGuild st ch.guild = some g)
    (hcount : countGuildChannels st ch.guild = 1) :
    (deleteChannelHandler st ch.id u).2 = st ∧
    (deleteChannelHandler st ch.id u).1 ≠ DeleteChannelResult.deleted ∧
    (canManageChannels g u = true →
      (deleteChannelHandler st ch.id u).1 = DeleteChannelResult.lastChannel) := by
  by_cases hperm : canManageChannels g u = true
  · simp [deleteChannelHandler, hch, hg, hperm, hcount]
  · simp [deleteChannelHandler, hch, hg, hperm]

/-- C5 (witness): the owner of `demoGuild` cannot delete its only
channel. -/
theorem last_channel_delete_blocked_witness :
    (deleteChannelHandler stLastChannel 10 7).1 = DeleteChannelResult.lastChannel :=
  (last_channel_delete_blocked stLastChannel demoChannel demoGuild 7 rfl rfl rfl).2.2
    (by decide)

/-- C6: immediately after guild creation by user `a`, the guild has
exactly one role named `@everyone` (containing `a`), exactly one role
granting ADMINISTRATOR (containing `a`), `a` as member and owner, and the
default text channel `general` belonging to the guild. -/
theorem guild_creation_defaults (gid cid : Nat) (name : String) (a : Nat)
    (icon : Option String) :
    ((createGuildHandler gid cid name a icon).1.roles.filter
        (fun r => r.name == "@everyone")).length = 1 ∧
    (∀ r ∈ (createGuildHandler gid cid name a icon).1.roles,
        r.name = "@everyone" → a ∈ r.members) ∧
    ((createGuildHandler gid cid name a icon).1.roles.filter
        (fun r => r.permissions.contains "ADMINISTRATOR")).length = 1 ∧
    (∀ r ∈ (createGuildHandler gid cid name a icon).1.roles,
        "ADMINISTRATOR" ∈ r.permissions → a ∈ r.members) ∧
    a ∈ (createGuildHandler gid cid name a icon).1.members ∧
    (createGuildHandler gid cid name a icon).1.owner = a ∧
    (createGuildHandler gid cid name a icon).2.name = "general" ∧
    (createGuildHandler gid cid name a icon).2.guild =
      (createGuildHandler gid cid name a icon).1.id ∧
    (createGuildHandler gid cid name a icon).2.kind = "text" := by
  refine ⟨rfl, ?_, rfl, ?_, ?_, rfl, rfl, rfl, rfl⟩
  · intro r hr hname
    simp [createGuildHandler, createGuild, guildPreSaveNew, defaultEveryoneRole,
      defaultAdminRole] at hr
    rcases hr with rfl | rfl
    · simp
    · simp at hname
  · intro r hr hperm
    simp [createGuildHandler, createGuild, guildPreSaveNew, defaultEveryoneRole,
      defaultAdminRole] at hr
    rcases hr with rfl | rfl
    · simp at hperm
    · simp
  · simp [createGuildHandler, createGuild, guildPreSaveNew]

/-- C6 (witness): the creator is in the fresh `@everyone` role's member
set. -/
theorem guild_creation_defaults_witness :
    (7 : Nat) ∈ (defaultEveryoneRole [7]).members :=
  (guild_creation_defaults 1 10 "g" 7 none).2.1 (defaultEveryoneRole [7])
    (by decide) rfl

/-- C7: a successfully created conversation message is broadcast exactly
to the room `conversation:<id>` and to `user:<p>` for every participant
`p`, and to no other room. -/
theorem dm_broadcast_rooms (st : Store) (nextMsgId convId u : Nat)
    (content : String) (conv : Conversation)
    (hfind : st.conversations.find? (fun c => c.id == convId) = some conv)
    (hok : (postConversationMessage st nextMsgId convId u content).1 =
      PostDMResult.created nextMsgId) :
    ∀ room, room ∈ (postConversationMessage st nextMsgId convId u content).2.2 ↔
      (room = "conversation:" ++ toString convId ∨
        ∃ p ∈ conv.participants, room = "user:" ++ toString p) := by
  by_cases hu : u ∈ conv.participants
  · have hrooms : (postConversationMessage st nextMsgId convId u content).2.2 =
        conv.participants.map (fun p => "user:" ++ toString p) ++
          ["conversation:" ++ toString convId] := by
      simp [postConversationMessage, hfind, hu]
    intro room
    rw [hrooms]
    simp only [List.mem_append, List.mem_map, List.mem_singleton]
    constructor
    · rintro (⟨p, hp, heq⟩ | hval)
      · exact Or.inr ⟨p, hp, heq.symm⟩
      · exact Or.inl hval
    · rintro (hval | ⟨p, hp, heq⟩)
      · exact Or.inr hval
      · exact Or.inl ⟨p, hp, heq.symm⟩
  · exfalso
    simp [postConversationMessage, hfind, hu] at hok

/-- C7 (witness): the non-sender participant's user room is among the
rooms targeted for a message in `demoConversation`. -/
theorem dm_broadcast_rooms_witness :
    ("user:8" ∈ (postConversationMessage stConversation 9 5 7 "hi").2.2) ↔
      ("user:8" = "conversation:" ++ toString 5 ∨
        ∃ p ∈ demoConversation.participants, "user:8" = "user:" ++ toString p) :=
  dm_broadcast_rooms stConversation 9 5 7 "hi" demoConversation rfl rfl "user:8"

/-- C8: in every guild reachable from creation through the exposed guild
mutations, every role's member set is a subset of the guild's member set;
moreover kicking a member removes them from the member list and from
every role's member set. -/
theorem guild_role_members_invariant :
    (∀ g, ReachableGuild g → rolesWithinMembers g) ∧
    (∀ g target, target ∉ (kickMember g target).members ∧
      ∀ r ∈ (kickMember g target).roles, target ∉ r.members) := by
  constructor
  · intro g hg
    induction hg with
    | created gid name userId icon =>
        intro r hr x hx
        simp [createGuild, guildPreSaveNew, defaultEveryoneRole,
          defaultAdminRole] at hr ⊢
        rcases hr with rfl | rfl <;> simpa using hx
    | joined g u _ _ ih =>
        intro r' hr' x hx
        simp only [joinGuildMember] at hr' hx ⊢
        rcases mem_pushEveryone u g.roles r' hr' with ⟨r, hr, he | he⟩
        · exact List.mem_append_left _ (ih r hr x (he ▸ hx))
        · rw [he] at hx
          rcases List.mem_append.mp hx with hx' | hx'
          · exact List.mem_append_left _ (ih r hr x hx')
          · exact List.mem_append_right _ hx'
    | kicked g target _ _ ih =>
        intro r' hr' x hx
        simp only [kickMember, List.mem_map] at hr'
        rcases hr' with ⟨r, hr, rfl⟩
        simp only [List.mem_filter] at hx
        simp only [kickMember, List.mem_filter]
        exact ⟨ih r hr x hx.1, hx.2⟩
    | roleCreated g name color perms _ ih =>
        intro r' hr' x hx
        simp only [createRole, List.mem_append, List.mem_singleton] at hr'
        rcases hr' with hr' | rfl
        · exact ih r' hr' x hx
        · simp at hx
  · intro g target
    constructor
    · simp [kickMember]
    · intro r hr
      simp only [kickMember, List.mem_map] at hr
      rcases hr with ⟨r₀, _, rfl⟩
      simp

/-- C8 (witness): the invariant holds for the freshly created
`demoGuild`. -/
theorem guild_role_members_invariant_witness :
    rolesWithinMembers demoGuild :=
  guild_role_members_invariant.1 demoGuild (ReachableGuild.created 1 "lean-devs" 7 none)

/-- C9 (counterexample): creating a conversation with oneself as recipient
(no prior conversations) succeeds and stores a conversation whose
participant list `[7, 7]` is not a list of two distinct users, refuting
the distinctness part of the claim. -/
theorem conversation_self_cex :
    (createConversation stSelfDM 1 7 7).1 = CreateConversationResult.created 1 ∧
    (∃ c ∈ (createConversation stSelfDM 1 7 7).2.conversations,
      c.participants = [7, 7] ∧ ¬ c.participants.Nodup) := by
  decide

/-- C9 (amended): every reachable conversation has exactly the two
participant entries `[creator, recipient]`, which are distinct whenever
the recipient differs from the creator (only a self-create yields a
duplicated entry); no two reachable conversations share the same
unordered participant set; and a create call for an already-covered pair
returns the existing conversation with the store unchanged. -/
theorem conversation_pair_invariant :
    (∀ convs, ReachableConversations convs →
      (∀ c ∈ convs, ∃ b, c.participants = [c.creator, b] ∧
        (b ≠ c.creator → c.participants.Nodup)) ∧
      List.Pairwise (fun c₁ c₂ => ¬ sameParticipants c₁ c₂) convs) ∧
    (∀ st n u v c,
      v ∈ st.users →
      st.conversations.find? (fun c => c.participants.contains u &&
        c.participants.contains v) = some c →
      createConversation st n u v = (CreateConversationResult.existing c.id, st)) := by
  constructor
  · intro convs h
    induction h with
    | nil => simp
    | step st n u v _ ih =>
        by_cases hv : v ∈ st.users
        · have hv' : st.users.contains v = true := by simpa using hv
          cases hfind : st.conversations.find? (fun c =>
              c.participants.contains u && c.participants.contains v) with
          | some c =>
              have hconvs : (createConversation st n u v).2.conversations =
                  st.conversations := by
                unfold createConversation
                rw [hv', hfind]
                rfl
              rw [hconvs]
              exact ih
          | none =>
              have hconvs : (createConversation st n u v).2.conversations =
                  st.conversations ++
                    [{ id := n, participants := [u, v], creator := u,
                       lastMessage := none }] := by
                unfold createConversation
                rw [hv', hfind]
                rfl
              have hnone : ∀ c ∈ st.conversations,
                  ¬(u ∈ c.participants ∧ v ∈ c.participants) := by
                intro c hc
                have := List.find?_eq_none.mp hfind c hc
                simpa using this
              rw [hconvs]
              constructor
              · intro c hc
                rcases List.mem_append.mp hc with hc' | hc'
                · exact ih.1 c hc'
                · rcases List.mem_singleton.mp hc' with rfl
                  exact ⟨v, rfl, fun hne => by simp [hne.symm]⟩
              · refine List.pairwise_append.mpr
                  ⟨ih.2, List.pairwise_singleton _ _, ?_⟩
                intro c hc c' hc' hsame
                rcases List.mem_singleton.mp hc' with rfl
                refine hnone c hc ⟨?_, ?_⟩
                · exact (hsame u).mpr (by simp)
                · exact (hsame v).mpr (by simp)
        · have hv' : st.users.contains v = false := by simpa using hv
          have hconvs : (createConversation st n u v).2.conversations =
              st.conversations := by
            unfold createConversation
            rw [hv']
            rfl
          rw [hconvs]
          exact ih
  · intro st n u v c hv hfind
    have hv' : st.users.contains v = true := by simpa using hv
    unfold createConversation
    rw [hv', hfind]
    rfl

/-- C9 (witness): the one-step-reachable conversation list produced by the
self-create has pairwise distinct participant sets. -/
theorem conversation_pair_invariant_witness :
    List.Pairwise (fun c₁ c₂ => ¬ sameParticipants c₁ c₂)
      ((createConversation stSelfDM 1 7 7).2.conversations) :=
  (conversation_pair_invariant.1 _
    (ReachableConversations.step stSelfDM 1 7 7 ReachableConversations.nil)).2

/-- C10: a message that has no channel (a conversation message) can only
be deleted by its author — for any other requester, over any store (so
regardless of any guild roles, MANAGE_MESSAGES, ADMINISTRATOR or guild
ownership the requester holds), the handler returns Forbidden and the
store is unchanged. -/
theorem dm_delete_author_only (st : Store) (msgId u : Nat) (msg : Message)
    (hm : st.messages.find? (fun m => m.id == msgId) = some msg)
    (hdm : msg.channel = none)
    (hauth : msg.author ≠ u) :
    (deleteMessageHandler st msgId u).1 = DeleteMessageResult.forbidden ∧
    (deleteMessageHandler st msgId u).2 = st := by
  have hb : (msg.author == u) = false := by simpa using hauth
  simp [deleteMessageHandler, hm, hb, hdm]

/-- C10 (witness): user 7, owner (hence ADMINISTRATOR holder) of
`demoGuild`, cannot delete user 8's conversation message. -/
theorem dm_delete_author_only_witness :
    (deleteMessageHandler stDMMessage 3 7).1 = DeleteMessageResult.forbidden ∧
    (deleteMessageHandler stDMMessage 3 7).2 = stDMMessage :=
  dm_delete_author_only stDMMessage 3 7
    { id := 3, content := "hi", author := 8, channel := none, conversationId := some 5 }
    rfl rfl (by decide)

end ChatBackend
